import Mathlib

/-!
Shallow embedding of the `SecurityService` class of the
blockchain-health-records repository (source file: the TypeScript module
exporting `SecurityService`, `SecurityAudit`, `AccessPermission`).

Modelling conventions:
- JS `number` timestamps (milliseconds since epoch) are `Nat`.
- Every call to `Date.now()` inside one method invocation is modelled by a
  single explicit `now : Nat` parameter of that method.
- `Math.random().toString(36).substr(2, 9)` id suffixes are explicit `rnd`
  string parameters.
- The mutable fields `auditLogs` / `permissions` of the singleton form a
  `ServiceState`; every method takes the state and returns it (updated or
  unchanged), mirroring the method-call semantics of the class.
- `getClientIP` always returns the hard-coded address; `getUserAgent` is
  modelled by its non-browser branch, the constant `"Unknown"`.
- String `toLowerCase()` is `strToLower`, the character-by-character
  lowercase map; all principal strings of interest are ASCII, where this
  agrees with the JS function.
-/

namespace HealthChain

inductive RiskLevel where
  | low
  | medium
  | high
deriving DecidableEq, Repr

inductive ResourceType where
  | record
  | profile
  | full_access
deriving DecidableEq, Repr

inductive PermType where
  | read
  | write
  | share
  | delete
deriving DecidableEq, Repr

def PermType.toStr : PermType → String
  | .read => "read"
  | .write => "write"
  | .share => "share"
  | .delete => "delete"

/-- Embedding of the `SecurityAudit` interface. -/
structure SecurityAudit where
  id : String
  timestamp : Nat
  action : String
  userAddress : String
  resourceId : Option String
  ipAddress : String
  userAgent : String
  success : Bool
  riskLevel : RiskLevel
  details : Option String
deriving DecidableEq, Repr

/-- Embedding of the `AccessPermission` interface. -/
structure AccessPermission where
  id : String
  granterAddress : String
  granteeAddress : String
  resourceId : String
  resourceType : ResourceType
  permissions : List PermType
  expiresAt : Nat
  createdAt : Nat
  isActive : Bool
deriving DecidableEq, Repr

/-- The two mutable collections of the `SecurityService` singleton. -/
structure ServiceState where
  auditLogs : List SecurityAudit
  permissions : List AccessPermission
deriving DecidableEq, Repr

def initialState : ServiceState := ⟨[], []⟩

/-- JavaScript `toLowerCase()`, written as a character-by-character map over
the string data (the same mapping `String.toLower` performs; ASCII principal
identifiers behave identically). -/
def strToLower (s : String) : String := String.mk (s.data.map Char.toLower)

/-- Embedding of `getClientIP` (returns the hard-coded address). -/
def getClientIP : String := "192.168.1.100"

/-- Embedding of `getUserAgent`, by its non-browser branch. -/
def getUserAgent : String := "Unknown"

/-- Input record of `logSecurityEvent` (the `Omit<SecurityAudit, ...>` type). -/
structure EventInput where
  action : String
  userAddress : String
  resourceId : Option String
  success : Bool
  riskLevel : RiskLevel
  details : Option String
deriving DecidableEq, Repr

/-- Embedding of the private method `logSecurityEvent`: builds the audit
record with a fresh id and the current timestamp and appends it to
`auditLogs`. (`saveAuditLogs` writes to `localStorage`; it does not alter the
in-memory state and is not represented.) -/
def logSecurityEvent (e : EventInput) (now : Nat) (rnd : String)
    (s : ServiceState) : ServiceState :=
  let audit : SecurityAudit :=
    { id := "audit_" ++ toString now ++ "_" ++ rnd
      timestamp := now
      action := e.action
      userAddress := e.userAddress
      resourceId := e.resourceId
      ipAddress := getClientIP
      userAgent := getUserAgent
      success := e.success
      riskLevel := e.riskLevel
      details := e.details }
  { s with auditLogs := s.auditLogs ++ [audit] }

/-- The fresh permission id built by `grantAccess`. -/
def permIdOf (now : Nat) (rnd : String) : String :=
  "perm_" ++ toString now ++ "_" ++ rnd

/-- The permission record built by `grantAccess`. -/
def mkPermission (granterAddress granteeAddress resourceId : String)
    (resourceType : ResourceType) (permissions : List PermType)
    (expiresInHours : Nat) (now : Nat) (rndP : String) : AccessPermission :=
  { id := permIdOf now rndP
    granterAddress := granterAddress
    granteeAddress := granteeAddress
    resourceId := resourceId
    resourceType := resourceType
    permissions := permissions
    expiresAt := now + expiresInHours * 60 * 60 * 1000
    createdAt := now
    isActive := true }

/-- Embedding of `grantAccess`: appends the new permission, then logs the
"Access Granted" event, and returns the new permission id. There is no
validation of `permissions` or `expiresInHours` in the source. -/
def grantAccess (granterAddress granteeAddress resourceId : String)
    (resourceType : ResourceType) (permissions : List PermType)
    (expiresInHours : Nat) (now : Nat) (rndP rndA : String)
    (s : ServiceState) : String × ServiceState :=
  let permission := mkPermission granterAddress granteeAddress resourceId
    resourceType permissions expiresInHours now rndP
  let s := { s with permissions := s.permissions ++ [permission] }
  let s := logSecurityEvent
    { action := "Access Granted"
      userAddress := granterAddress
      resourceId := some resourceId
      success := true
      riskLevel := .medium
      details := some ("Granted " ++ String.intercalate ", "
        (permissions.map PermType.toStr) ++ " to " ++ granteeAddress) }
    now rndA s
  (permission.id, s)

inductive SecurityError where
  | notFoundOrUnauthorized
  | decryptionFailed
  | invalidCharacter
deriving DecidableEq, Repr

/-- The lookup predicate of `revokeAccess`: id and original granter must
match exactly (the `find` callback). -/
def revokeMatches (granterAddress permissionId : String)
    (p : AccessPermission) : Bool :=
  p.id == permissionId && p.granterAddress == granterAddress

/-- In-place mutation of the found array element: deactivate the first
permission matching the `revokeAccess` lookup, leave the rest unchanged. -/
def deactivateFirst (granterAddress permissionId : String) :
    List AccessPermission → List AccessPermission
  | [] => []
  | p :: ps =>
    if revokeMatches granterAddress permissionId p then
      { p with isActive := false } :: ps
    else
      p :: deactivateFirst granterAddress permissionId ps

/-- Embedding of `revokeAccess`: looks the permission up by id and original
granter, unconditionally on `isActive`; throws ("Permission not found or
unauthorized") if absent, otherwise flips `isActive` to false and logs the
"Access Revoked" event. -/
def revokeAccess (granterAddress permissionId : String) (now : Nat)
    (rndA : String) (s : ServiceState) :
    Except SecurityError Unit × ServiceState :=
  match s.permissions.find? (revokeMatches granterAddress permissionId) with
  | none => (.error .notFoundOrUnauthorized, s)
  | some p =>
    let s := { s with
      permissions := deactivateFirst granterAddress permissionId s.permissions }
    let s := logSecurityEvent
      { action := "Access Revoked"
        userAddress := granterAddress
        resourceId := some p.resourceId
        success := true
        riskLevel := .medium
        details := some ("Revoked access from " ++ p.granteeAddress) }
      now rndA s
    (.ok (), s)

/-- The filter predicate of `checkAccess`: case-insensitive grantee match,
exact resource match, active, unexpired, and the required permission is a
member of the permission list. -/
def checkMatches (userAddress resourceId : String) (req : PermType)
    (now : Nat) (p : AccessPermission) : Bool :=
  strToLower p.granteeAddress == strToLower userAddress &&
  p.resourceId == resourceId &&
  p.isActive &&
  decide (p.expiresAt > now) &&
  p.permissions.contains req

/-- Embedding of `checkAccess`: filters effective matching permissions,
returns whether any exists, and always logs an "Access Check" event whose
success flag and risk level depend on the outcome. -/
def checkAccess (userAddress resourceId : String) (req : PermType)
    (now : Nat) (rndA : String) (s : ServiceState) : Bool × ServiceState :=
  let validPermissions := s.permissions.filter
    (checkMatches userAddress resourceId req now)
  let hasAccess := decide (validPermissions.length > 0)
  let s := logSecurityEvent
    { action := "Access Check"
      userAddress := userAddress
      resourceId := some resourceId
      success := hasAccess
      riskLevel := if hasAccess then .low else .medium
      details := some ("Checked " ++ req.toStr ++ " permission") }
    now rndA s
  (hasAccess, s)

/-- JavaScript `array.slice(0, e)` for a possibly negative `e`: a negative
end index counts from the end of the array, clamped at zero; `List.take`
already clamps a too-large positive index at the length. -/
def jsSliceTo (l : List SecurityAudit) (e : Int) : List SecurityAudit :=
  if e < 0 then l.take ((l.length + e).toNat) else l.take e.toNat

/-- The comparator of `getSecurityAuditLogs`, `(a, b) => b.timestamp - a.timestamp`,
as a Boolean order: descending by timestamp. -/
def tsDesc (a b : SecurityAudit) : Bool :=
  b.timestamp ≤ a.timestamp

/-- The principal filter of `getSecurityAuditLogs` (case-insensitive). -/
def logMatches (userAddress : String) (log : SecurityAudit) : Bool :=
  strToLower log.userAddress == strToLower userAddress

/-- Embedding of `getSecurityAuditLogs`: copy and sort the log descending by
timestamp, filter by principal when a truthy one is given, truncate with JS
`slice` semantics. The source guards the filter with `if (userAddress)`, a
JS truthiness test: an absent principal and the empty string (falsy) both
skip the filter, so the query then returns all principals entries. The
`limit` parameter defaults to `50` in the source; callers of the model
always pass it explicitly. The method reads but never writes the state. -/
def getSecurityAuditLogs (userAddress : Option String) (limit : Int)
    (s : ServiceState) : List SecurityAudit × ServiceState :=
  let logs := s.auditLogs.mergeSort tsDesc
  let logs := match userAddress with
    | some u => if u = "" then logs else logs.filter (logMatches u)
    | none => logs
  (jsSliceTo logs limit, s)

/-- The filter predicate of `getUserPermissions`: the principal is granter or
grantee (case-insensitive), the permission is active and unexpired. -/
def userPermMatches (userAddress : String) (now : Nat)
    (p : AccessPermission) : Bool :=
  (strToLower p.granterAddress == strToLower userAddress ||
   strToLower p.granteeAddress == strToLower userAddress) &&
  p.isActive &&
  decide (p.expiresAt > now)

/-- Embedding of `getUserPermissions`: currently-effective permissions where
the principal is granter or grantee. Reads but never writes the state. -/
def getUserPermissions (userAddress : String) (now : Nat)
    (s : ServiceState) : List AccessPermission × ServiceState :=
  (s.permissions.filter (userPermMatches userAddress now), s)

/-- The recency predicate of `calculateSecurityScore`:
`Date.now() - log.timestamp < 7 * 24 * 60 * 60 * 1000` in signed JS
arithmetic. -/
def isRecent (now : Nat) (log : SecurityAudit) : Bool :=
  decide ((now : Int) - (log.timestamp : Int) < 7 * 24 * 60 * 60 * 1000)

/-- Embedding of `calculateSecurityScore`: start from 100, subtract 2 per
failed event and 5 per high-risk event among the up-to-100 most recent events
of the principal, subtract 3 per effective permission beyond 10, add 5 when
any fetched event is recent, and clamp to [0, 100]. Reads but never writes
the state. -/
def calculateSecurityScore (userAddress : String) (now : Nat)
    (s : ServiceState) : Int × ServiceState :=
  let recentLogs := (getSecurityAuditLogs (some userAddress) 100 s).1
  let permissions := (getUserPermissions userAddress now s).1
  let score : Int := 100
  let failedEvents := recentLogs.filter (fun log => !log.success)
  let score := score - failedEvents.length * 2
  let highRiskEvents := recentLogs.filter (fun log => log.riskLevel == .high)
  let score := score - highRiskEvents.length * 5
  let score :=
    if permissions.length > 10 then score - (permissions.length - 10) * 3
    else score
  let recentActivity := recentLogs.filter (isRecent now)
  let score := if recentActivity.length > 0 then score + 5 else score
  (max 0 (min 100 score), s)

/-!
Keccak-256, the hash behind `ethers.keccak256`, as used by
`deriveEncryptionKey`. Lanes are `Nat` values kept below `2 ^ 64` by explicit
reduction. The implementation was validated against the standard test vectors
of Keccak-256 (the original padding domain `0x01`, rate 136 bytes).
-/

namespace Keccak

def U64 : Nat := 2 ^ 64

def rot64 (n k : Nat) : Nat :=
  ((n <<< k) ||| (n >>> (64 - k))) % U64

def lane (A : List Nat) (x y : Nat) : Nat :=
  A.getD (x % 5 + 5 * (y % 5)) 0

def theta (A : List Nat) : List Nat :=
  let C := (List.range 5).map fun x =>
    lane A x 0 ^^^ lane A x 1 ^^^ lane A x 2 ^^^ lane A x 3 ^^^ lane A x 4
  let D := (List.range 5).map fun x =>
    C.getD ((x + 4) % 5) 0 ^^^ rot64 (C.getD ((x + 1) % 5) 0) 1
  (List.range 25).map fun i => A.getD i 0 ^^^ D.getD (i % 5) 0

def rhoOffsets : List Nat :=
  [0, 1, 62, 28, 27] ++ [36, 44, 6, 55, 20] ++ [3, 10, 43, 25, 39] ++
    [41, 45, 15, 21, 8] ++ [18, 2, 61, 56, 14]

def rhoPi (A : List Nat) : List Nat :=
  (List.range 25).foldl
    (fun B i =>
      let x := i % 5
      let y := i / 5
      B.set (y + 5 * ((2 * x + 3 * y) % 5))
        (rot64 (A.getD i 0) (rhoOffsets.getD i 0)))
    (List.replicate 25 0)

def chi (B : List Nat) : List Nat :=
  (List.range 25).map fun i =>
    let x := i % 5
    let y := i / 5
    lane B x y ^^^ ((lane B (x + 1) y ^^^ (U64 - 1)) &&& lane B (x + 2) y)

def iotaStep (rc : Nat) (A : List Nat) : List Nat :=
  A.set 0 (A.getD 0 0 ^^^ rc)

def roundConstants : List Nat :=
  [0x1, 0x8082, 0x800000000000808a, 0x8000000080008000] ++
    [0x808b, 0x80000001, 0x8000000080008081, 0x8000000000008009] ++
    [0x8a, 0x88, 0x80008009, 0x8000000a] ++
    [0x8000808b, 0x800000000000008b, 0x8000000000008089, 0x8000000000008003] ++
    [0x8000000000008002, 0x8000000000000080, 0x800a, 0x800000008000000a] ++
    [0x8000000080008081, 0x8000000000008080, 0x80000001, 0x8000000080008008]

def keccakF (A : List Nat) : List Nat :=
  roundConstants.foldl (fun A rc => iotaStep rc (chi (rhoPi (theta A)))) A

/-- Keccak pad10*1 with domain bit `0x01`, rate 136 bytes. -/
def pad (msg : List Nat) : List Nat :=
  let padLen := 136 - msg.length % 136
  if padLen == 1 then msg ++ [0x81]
  else msg ++ [0x01] ++ List.replicate (padLen - 2) 0 ++ [0x80]

/-- Little-endian 64-bit lane from up to 8 bytes. -/
def le64 (bytes : List Nat) : Nat :=
  bytes.foldr (fun b acc => acc * 256 + b) 0

def xorIn (A block : List Nat) : List Nat :=
  (List.range 25).map fun i =>
    if i < 17 then A.getD i 0 ^^^ le64 ((block.drop (8 * i)).take 8)
    else A.getD i 0

def absorbBlocks (A : List Nat) (msg : List Nat) : List Nat :=
  match msg with
  | [] => A
  | b :: ms =>
    absorbBlocks (keccakF (xorIn A ((b :: ms).take 136))) (ms.drop 135)
termination_by msg.length
decreasing_by simp; omega

/-- The first 32 output bytes (one squeeze at rate 136 suffices). -/
def squeeze32 (A : List Nat) : List Nat :=
  (List.range 32).map fun j => A.getD (j / 8) 0 >>> (8 * (j % 8)) % 256

def hexDigit (n : Nat) : Char :=
  "0123456789abcdef".toList.getD n '0'

def byteToHex (b : Nat) : List Char :=
  [hexDigit (b / 16), hexDigit (b % 16)]

/-- UTF-8 encoding of a string as a byte list. -/
def utf8Encode (s : String) : List Nat :=
  s.toList.flatMap fun c =>
    let n := c.toNat
    if n < 0x80 then [n]
    else if n < 0x800 then [0xC0 ||| (n >>> 6), 0x80 ||| (n &&& 0x3F)]
    else if n < 0x10000 then
      [0xE0 ||| (n >>> 12), 0x80 ||| ((n >>> 6) &&& 0x3F), 0x80 ||| (n &&& 0x3F)]
    else
      [0xF0 ||| (n >>> 18), 0x80 ||| ((n >>> 12) &&& 0x3F),
       0x80 ||| ((n >>> 6) &&& 0x3F), 0x80 ||| (n &&& 0x3F)]

/-- Keccak-256 of a string rendered the way `ethers.keccak256` renders it:
"0x" followed by 64 lowercase hex digits. -/
def keccak256Hex (s : String) : String :=
  let A := absorbBlocks (List.replicate 25 0) (pad (utf8Encode s))
  "0x" ++ String.mk ((squeeze32 A).flatMap byteToHex)

end Keccak

/-- Embedding of `deriveEncryptionKey`:
`ethers.keccak256(ethers.toUtf8Bytes(userAddress + "healthchain_key"))`. -/
def deriveEncryptionKey (userAddress : String) : String :=
  Keccak.keccak256Hex (userAddress ++ "healthchain_key")

/-- The first 16 characters of the derived key, `key.slice(0, 16)`, stored in
the payload by `encryptData` and compared by `decryptData`. -/
def keyPrefix (userAddress : String) : String :=
  (deriveEncryptionKey userAddress).take 16

/-- The structured payload `{ data, key, timestamp }` that `encryptData`
serializes. `btoa(JSON.stringify(...))` and `JSON.parse(atob(...))` are
mutually inverse on these values, so the base64/JSON round trip is modelled
as the identity and the ciphertext is the structured value itself. -/
structure EncryptedPayload where
  data : String
  key : String
  timestamp : Nat
deriving DecidableEq, Repr

/-- The domain of `btoa`: every character of the string must lie in the
Latin-1 range (code point at most 0xFF), else `btoa` throws
`InvalidCharacterError`. `JSON.stringify` escapes control characters and the
JSON metacharacters to ASCII but leaves characters above U+00FF literal, so
`btoa(JSON.stringify({ data, key, timestamp }))` succeeds exactly when every
character of `data` is at most U+00FF (the key is hexadecimal ASCII and the
timestamp is decimal ASCII). -/
def btoaEncodable (s : String) : Bool :=
  s.data.all fun c => c.toNat ≤ 0xFF

/-- Embedding of `encryptData`: derive the key and pack the plaintext with
the 16-character key prefix and the current timestamp. When the plaintext is
in the domain of `btoa`, log a low-risk "Data Encrypted" event and return
the payload; otherwise `btoa` throws before the success log, the catch
branch logs the high-risk "Encryption Failed" event (whose details carry the
environment-specific error message) and rethrows. -/
def encryptData (data userAddress : String) (now : Nat) (rnd : String)
    (s : ServiceState) : Except SecurityError EncryptedPayload × ServiceState :=
  let key := deriveEncryptionKey userAddress
  if btoaEncodable data then
    let encrypted : EncryptedPayload :=
      { data := data, key := key.take 16, timestamp := now }
    let s := logSecurityEvent
      { action := "Data Encrypted"
        userAddress := userAddress
        resourceId := none
        success := true
        riskLevel := .low
        details := none }
      now rnd s
    (.ok encrypted, s)
  else
    let s := logSecurityEvent
      { action := "Encryption Failed"
        userAddress := userAddress
        resourceId := none
        success := false
        riskLevel := .high
        details := some "InvalidCharacterError" }
      now rnd s
    (.error .invalidCharacter, s)

/-- Embedding of `decryptData` on a structurally valid ciphertext: derive the
key for the calling principal, compare the stored 16-character prefix, return
the plaintext and log success on a match; otherwise log the high-risk
"Decryption Failed" event and throw ("Failed to decrypt data"). -/
def decryptData (encryptedData : EncryptedPayload) (userAddress : String)
    (now : Nat) (rnd : String) (s : ServiceState) :
    Except SecurityError String × ServiceState :=
  let key := deriveEncryptionKey userAddress
  if encryptedData.key = key.take 16 then
    let s := logSecurityEvent
      { action := "Data Decrypted"
        userAddress := userAddress
        resourceId := none
        success := true
        riskLevel := .low
        details := none }
      now rnd s
    (.ok encryptedData.data, s)
  else
    let s := logSecurityEvent
      { action := "Decryption Failed"
        userAddress := userAddress
        resourceId := none
        success := false
        riskLevel := .high
        details := some "Invalid decryption key" }
      now rnd s
    (.error .decryptionFailed, s)

/-!
Spec-side definitions and concrete example data used by the theorems below.
-/

/-- Scoring formula as the specification states it: clamp to [0, 100] of 100,
minus 2 per failed event and 5 per high-risk event among the fetched events,
minus 3 per effective permission beyond 10, plus a flat 5 when any fetched
event is within the last 7 days. Written from the words of the spec, to be
compared with `calculateSecurityScore`. -/
def specScore (events : List SecurityAudit) (permCount : Nat) (now : Nat) : Int :=
  max 0 (min 100 (100
    - 2 * (events.countP (fun e => e.success == false) : Int)
    - 5 * (events.countP (fun e => e.riskLevel == RiskLevel.high) : Int)
    - (if 10 < permCount then 3 * ((permCount : Int) - 10) else 0)
    + (if events.any (isRecent now) then 5 else 0)))

/-- An audit event with the given identity, timestamp, principal, outcome and
risk level; the remaining fields take the constant values the service itself
fills in. -/
def mkEvent (id : String) (ts : Nat) (addr : String) (succ : Bool)
    (risk : RiskLevel) : SecurityAudit :=
  { id := id
    timestamp := ts
    action := "Access Check"
    userAddress := addr
    resourceId := none
    ipAddress := getClientIP
    userAgent := getUserAgent
    success := succ
    riskLevel := risk
    details := none }

/-- Evaluation time for the concrete scoring scenario: a little more than
7 days after the newest example event, so no recency bonus applies. -/
def c3Now : Nat := 7 * 24 * 60 * 60 * 1000 + 2000

/-- Concrete scenario state for the scoring claim: principal "X" has three
failed events and one failed high-risk event, all older than 7 days (relative
to `c3Now`), and no permissions. The log is stored newest-first, already in
descending timestamp order. -/
def c3State : ServiceState :=
  { auditLogs :=
      [ mkEvent "audit_1" 1000 "X" false .high
      , mkEvent "audit_2" 900 "X" false .low
      , mkEvent "audit_3" 800 "X" false .medium
      , mkEvent "audit_4" 700 "X" false .low ]
    permissions := [] }

/-- A state with one old failed event belonging to principal "Y" and no
permissions, used to exercise the empty-string principal: the truthy guard
of the source skips the principal filter there, so this foreign event is
counted by score("") although principal "" has no events of its own. -/
def c3StateB : ServiceState :=
  { auditLogs := [mkEvent "audit_y" 1000 "Y" false .low], permissions := [] }

/-- A single active permission used by the double-revoke scenario. -/
def c5Perm : AccessPermission :=
  { id := "perm_1_r"
    granterAddress := "A"
    granteeAddress := "B"
    resourceId := "rec1"
    resourceType := .record
    permissions := [.read]
    expiresAt := 1000000
    createdAt := 0
    isActive := true }

def c5State : ServiceState := { auditLogs := [], permissions := [c5Perm] }

/-- Two audit events for the audit-query scenarios, stored in descending
timestamp order; the first belongs to principal "B", the second to "A". -/
def c8e1 : SecurityAudit := mkEvent "audit_a" 200 "B" true .low

def c8e2 : SecurityAudit := mkEvent "audit_b" 100 "A" true .low

def c8State : ServiceState := { auditLogs := [c8e1, c8e2], permissions := [] }

/-- A state with one old failed event for principal "X", used to witness the
monotonicity of the score in the failed-event count. Its single event is
older than 7 days relative to `c3Now` and is no high-risk event. -/
def c9State : ServiceState :=
  { auditLogs := [mkEvent "audit_f" 1000 "X" false .low], permissions := [] }

/-- A state with one old high-risk (but successful) event for principal "X",
used to witness the monotonicity of the score in the high-risk count. -/
def c9StateH : ServiceState :=
  { auditLogs := [mkEvent "audit_h" 1000 "X" true .high], permissions := [] }

/-- Strings of distinct lengths, used as an infinite family of principals for
the pigeonhole argument on the truncated encryption key. -/
def aStr (n : Nat) : String := String.mk (List.replicate n 'a')

/-- Character code reduced below 128; faithful on the ASCII output alphabet
of `keccak256Hex`. -/
def packChar (c : Char) : Fin 128 := ⟨c.toNat % 128, Nat.mod_lt _ (by norm_num)⟩

/-- Finite abstraction of a string of length at most 16: its length and its
character codes. Injective on ASCII strings of length at most 16. -/
def packStr (s : String) : (Fin 16 → Fin 128) × Fin 17 :=
  (fun i => packChar (s.data.getD i '\x00'), ⟨min s.length 16, by omega⟩)

/-!
General helper lemmas.
-/

theorem getD_mem_or_eq (l : List Char) (n : Nat) (d : Char) :
    l.getD n d ∈ l ∨ l.getD n d = d := by
  rcases h : l[n]? with _ | a
  · right; simp [List.getD_eq_getElem?_getD, h]
  · left
    simp only [List.getD_eq_getElem?_getD, h, Option.getD_some]
    exact List.getElem?_mem h

theorem mem_hexAlphabet_toNat_lt {c : Char}
    (h : c ∈ "0123456789abcdef".toList) : c.toNat < 128 := by
  have hall : ∀ c ∈ "0123456789abcdef".toList, c.toNat < 128 := by decide
  exact hall c h

theorem hexDigit_toNat_lt (n : Nat) : (Keccak.hexDigit n).toNat < 128 := by
  unfold Keccak.hexDigit
  rcases getD_mem_or_eq "0123456789abcdef".toList n '0' with h | h
  · exact mem_hexAlphabet_toNat_lt h
  · rw [h]; decide

theorem byteToHex_toNat_lt {c : Char} {b : Nat}
    (h : c ∈ Keccak.byteToHex b) : c.toNat < 128 := by
  unfold Keccak.byteToHex at h
  rcases List.mem_cons.mp h with h | h
  · rw [h]; exact hexDigit_toNat_lt _
  · rcases List.mem_cons.mp h with h | h
    · rw [h]; exact hexDigit_toNat_lt _
    · cases h

theorem keccak256Hex_ascii {c : Char} (s : String)
    (h : c ∈ (Keccak.keccak256Hex s).data) : c.toNat < 128 := by
  simp only [Keccak.keccak256Hex, String.data_append] at h
  rcases List.mem_append.mp h with h | h
  · have hall : ∀ c ∈ "0x".data, c.toNat < 128 := by decide
    exact hall c h
  · rcases List.mem_flatMap.mp h with ⟨b, _, hc⟩
    exact byteToHex_toNat_lt hc

theorem keyPrefix_ascii {c : Char} (s : String)
    (h : c ∈ (keyPrefix s).data) : c.toNat < 128 := by
  simp only [keyPrefix, deriveEncryptionKey, String.data_take] at h
  exact keccak256Hex_ascii _ (List.mem_of_mem_take h)

theorem string_length_data (s : String) : s.length = s.data.length := rfl

theorem keyPrefix_length_le (s : String) : (keyPrefix s).length ≤ 16 := by
  rw [string_length_data]
  unfold keyPrefix
  rw [String.data_take]
  exact List.length_take_le _ _

theorem packStr_inj {s1 s2 : String}
    (h1l : s1.length ≤ 16) (h2l : s2.length ≤ 16)
    (h1 : ∀ c ∈ s1.data, c.toNat < 128) (h2 : ∀ c ∈ s2.data, c.toNat < 128)
    (h : packStr s1 = packStr s2) : s1 = s2 := by
  have hf := congrArg Prod.fst h
  have hn := congrArg Prod.snd h
  simp only [packStr] at hf hn
  have hL : s1.length = s2.length := by
    have := congrArg Fin.val hn
    simp only at this
    omega
  have hL' : s1.data.length = s2.data.length := hL
  have h1l' : s1.data.length ≤ 16 := h1l
  have hdata : s1.data = s2.data := by
    apply List.ext_getElem?
    intro n
    by_cases hn1 : n < s1.data.length
    · have hn2 : n < s2.data.length := by omega
      have h16 : n < 16 := by omega
      have hfn := congrFun hf ⟨n, h16⟩
      simp only [packChar] at hfn
      have hv := congrArg Fin.val hfn
      simp only at hv
      rw [List.getD_eq_getElem?_getD, List.getD_eq_getElem?_getD,
        List.getElem?_eq_getElem hn1, List.getElem?_eq_getElem hn2] at hv
      simp only [Option.getD_some] at hv
      have b1 := h1 _ (List.getElem_mem hn1)
      have b2 := h2 _ (List.getElem_mem hn2)
      rw [Nat.mod_eq_of_lt b1, Nat.mod_eq_of_lt b2] at hv
      have hc : s1.data[n] = s2.data[n] := by
        rw [← Char.ofNat_toNat s1.data[n], ← Char.ofNat_toNat s2.data[n], hv]
      rw [List.getElem?_eq_getElem hn1, List.getElem?_eq_getElem hn2, hc]
    · rw [List.getElem?_eq_none (by omega), List.getElem?_eq_none (by omega)]
  cases s1; cases s2; exact congrArg String.mk hdata

theorem aStr_injective : Function.Injective aStr := by
  intro n m h
  have := congrArg String.length h
  simpa [aStr, String.length] using this

/-- The 16-character key prefix cannot distinguish all principals: by the
pigeonhole principle some two distinct principal strings derive the same
prefix. -/
theorem keyPrefix_exists_collision :
    ∃ A B : String, A ≠ B ∧ keyPrefix A = keyPrefix B := by
  obtain ⟨n, m, hnm, h⟩ :=
    Finite.exists_ne_map_eq_of_infinite (fun n => packStr (keyPrefix (aStr n)))
  refine ⟨aStr n, aStr m, fun e => hnm (aStr_injective e), ?_⟩
  exact packStr_inj (keyPrefix_length_le _) (keyPrefix_length_le _)
    (fun c hc => keyPrefix_ascii _ hc) (fun c hc => keyPrefix_ascii _ hc) h

/-- Decryption of a ciphertext produced for principal `A`, attempted by
principal `B`, succeeds (with the original plaintext) exactly when the two
derived key prefixes coincide. -/
theorem decryptData_key_cases (mm k : String) (tE2 : Nat) (B : String)
    (tD : Nat) (rD : String) (s2 : ServiceState) :
    (decryptData ⟨mm, k, tE2⟩ B tD rD s2).1 =
      if k = keyPrefix B then .ok mm else .error .decryptionFailed := by
  unfold decryptData keyPrefix
  dsimp only
  split
  · rfl
  · rfl

theorem encryptData_ok (m A : String) (tE : Nat) (rE : String)
    (s : ServiceState) (h : btoaEncodable m = true) :
    (encryptData m A tE rE s).1 = .ok ⟨m, keyPrefix A, tE⟩ := by
  unfold encryptData
  dsimp only
  split
  · rfl
  · rename_i hc
    exact absurd h hc

theorem encryptData_err (m A : String) (tE : Nat) (rE : String)
    (s : ServiceState) (h : ¬ btoaEncodable m = true) :
    (encryptData m A tE rE s).1 = .error .invalidCharacter := by
  unfold encryptData
  dsimp only
  split
  · rename_i hc
    exact absurd hc h
  · rfl

/-- C4 (amended): for every plaintext within the domain of btoa (all
characters at most U+00FF), encryption succeeds and decrypting the produced
ciphertext with the same principal returns the original plaintext, while
decrypting it with principal B returns the plaintext when the two derived
16-character key prefixes coincide and fails with DecryptionFailed when they
differ; for a plaintext with a character above U+00FF encryption itself
fails. The prefix condition cannot be strengthened to plain distinctness of
the principals: the truncated prefix is not injective, so some two distinct
principals share it. -/
theorem C4_encrypt_decrypt_behavior (m A B : String) (tE tD : Nat)
    (rE rD : String) (s s2 s3 : ServiceState) :
    (btoaEncodable m = true →
      ∃ c, (encryptData m A tE rE s).1 = .ok c ∧
        (decryptData c A tD rD s2).1 = .ok m ∧
        (decryptData c B tD rD s3).1 =
          (if keyPrefix A = keyPrefix B then .ok m
           else .error .decryptionFailed)) ∧
    (btoaEncodable m = false →
      (encryptData m A tE rE s).1 = .error .invalidCharacter) ∧
    (∃ A2 B2 : String, A2 ≠ B2 ∧ keyPrefix A2 = keyPrefix B2) := by
  refine ⟨?_, ?_, keyPrefix_exists_collision⟩
  · intro hm
    refine ⟨⟨m, keyPrefix A, tE⟩, encryptData_ok m A tE rE s hm, ?_, ?_⟩
    · have h := decryptData_key_cases m (keyPrefix A) tE A tD rD s2
      rwa [if_pos rfl] at h
    · exact decryptData_key_cases m (keyPrefix A) tE B tD rD s3
  · intro hm
    exact encryptData_err m A tE rE s (by simp [hm])

/-- C4 counterexample: the round trip fails at a concrete input. For the
plaintext made of the single character U+20AC (above the Latin-1 domain of
btoa) encryption itself throws instead of producing a ciphertext, after
logging the high-risk "Encryption Failed" event, so decrypt of the
encryption result cannot return the plaintext. -/
theorem C4_counterexample :
    (encryptData "€" "A" 0 "r" initialState).1 =
      .error .invalidCharacter ∧
    (encryptData "€" "A" 0 "r" initialState).2.auditLogs.length = 1 ∧
    ((encryptData "€" "A" 0 "r" initialState).2.auditLogs.map
      (fun e => (e.action, e.success, e.riskLevel))) =
      [("Encryption Failed", false, RiskLevel.high)] := by
  have h : btoaEncodable "€" = false := by decide
  refine ⟨encryptData_err _ _ _ _ _ (by simp [h]), ?_, ?_⟩
  · unfold encryptData
    dsimp only
    rw [if_neg (by simp [h])]
    rfl
  · unfold encryptData
    dsimp only
    rw [if_neg (by simp [h])]
    rfl

/-- C4 witness: the amended claim exercised at the encodable plaintext "m"
(the hypothesis of the round-trip half) and at the non-encodable plaintext
of C4_counterexample shape (the hypothesis of the failure half). -/
theorem C4_witness :
    (btoaEncodable "m" = true ∧
      (∃ c, (encryptData "m" "A" 1 "r" initialState).1 = .ok c ∧
        (decryptData c "A" 2 "r2" initialState).1 = .ok "m" ∧
        (decryptData c "Bb" 2 "r2" initialState).1 =
          (if keyPrefix "A" = keyPrefix "Bb" then .ok "m"
           else .error .decryptionFailed))) ∧
    (btoaEncodable "ÿx€" = false ∧
      (encryptData "ÿx€" "A" 1 "r" initialState).1 =
        .error .invalidCharacter) :=
  ⟨⟨by decide,
    (C4_encrypt_decrypt_behavior "m" "A" "Bb" 1 2 "r" "r2" initialState
      initialState initialState).1 (by decide)⟩,
   ⟨by decide,
    (C4_encrypt_decrypt_behavior "ÿx€" "A" "Bb" 1 2 "r" "r2"
      initialState initialState initialState).2.1 (by decide)⟩⟩

/-!
Access-control helper lemmas.
-/

theorem logSecurityEvent_permissions (e : EventInput) (now : Nat)
    (rnd : String) (s : ServiceState) :
    (logSecurityEvent e now rnd s).permissions = s.permissions := rfl

theorem grantAccess_fst (g b r : String) (rt : ResourceType)
    (perms : List PermType) (h t : Nat) (rndP rndA : String)
    (s : ServiceState) :
    (grantAccess g b r rt perms h t rndP rndA s).1 = permIdOf t rndP := rfl

theorem grantAccess_snd_permissions (g b r : String) (rt : ResourceType)
    (perms : List PermType) (h t : Nat) (rndP rndA : String)
    (s : ServiceState) :
    (grantAccess g b r rt perms h t rndP rndA s).2.permissions =
      s.permissions ++ [mkPermission g b r rt perms h t rndP] := rfl

theorem checkAccess_fst (u r : String) (p : PermType) (now : Nat)
    (rnd : String) (s : ServiceState) :
    (checkAccess u r p now rnd s).1 =
      decide (0 < (s.permissions.filter (checkMatches u r p now)).length) := rfl

theorem checkMatches_mkPermission_self (g b r : String) (rt : ResourceType)
    (perms : List PermType) (p : PermType) (h t : Nat) (rndP : String)
    (hp : p ∈ perms) (hh : 0 < h) :
    checkMatches b r p t (mkPermission g b r rt perms h t rndP) = true := by
  simp [checkMatches, mkPermission, List.contains, hp, hh]

theorem revokeMatches_false_of_id_ne {g pid : String} {q : AccessPermission}
    (h : q.id ≠ pid) : revokeMatches g pid q = false := by
  simp [revokeMatches, h]

theorem revokeMatches_mkPermission (g b r : String) (rt : ResourceType)
    (perms : List PermType) (h t : Nat) (rndP : String) :
    revokeMatches g (permIdOf t rndP) (mkPermission g b r rt perms h t rndP) = true := by
  simp [revokeMatches, mkPermission]

theorem find?_append_of_none {α} (p : α → Bool) (l1 l2 : List α)
    (h : l1.find? p = none) : (l1 ++ l2).find? p = l2.find? p := by
  induction l1 with
  | nil => rfl
  | cons a l ih =>
    cases hpa : p a with
    | true =>
      rw [List.find?_cons_of_pos _ hpa] at h
      exact Option.noConfusion h
    | false =>
      have hpa' : ¬ p a := by simp [hpa]
      rw [List.find?_cons_of_neg _ hpa'] at h
      rw [List.cons_append, List.find?_cons_of_neg _ hpa']
      exact ih h

theorem deactivateFirst_append_of_none (g pid : String)
    (l1 l2 : List AccessPermission)
    (h : ∀ q ∈ l1, revokeMatches g pid q = false) :
    deactivateFirst g pid (l1 ++ l2) = l1 ++ deactivateFirst g pid l2 := by
  induction l1 with
  | nil => rfl
  | cons p ps ih =>
    have hp := h p (List.mem_cons_self p ps)
    have hps : ∀ q ∈ ps, revokeMatches g pid q = false :=
      fun q hq => h q (List.mem_cons_of_mem p hq)
    simp [deactivateFirst, hp, ih hps]

theorem revokeAccess_of_find (g pid : String) (now : Nat) (rndA : String)
    (s : ServiceState) (P : AccessPermission)
    (h : s.permissions.find? (revokeMatches g pid) = some P) :
    (revokeAccess g pid now rndA s).1 = .ok () ∧
    (revokeAccess g pid now rndA s).2.permissions =
      deactivateFirst g pid s.permissions := by
  unfold revokeAccess
  rw [h]
  exact ⟨rfl, rfl⟩

theorem revokeAccess_of_none (g pid : String) (now : Nat) (rndA : String)
    (s : ServiceState)
    (h : s.permissions.find? (revokeMatches g pid) = none) :
    (revokeAccess g pid now rndA s).1 = .error .notFoundOrUnauthorized ∧
    (revokeAccess g pid now rndA s).2 = s := by
  unfold revokeAccess
  rw [h]
  exact ⟨rfl, rfl⟩

theorem checkMatches_deactivated (u r : String) (p : PermType) (now : Nat)
    (P : AccessPermission) :
    checkMatches u r p now { P with isActive := false } = false := by
  simp [checkMatches]

/-- C1: after a grant by g to b of a permission set containing p on resource
r with positive ttl, an access check for (b, r, p) succeeds immediately;
revoking that same permission id as g succeeds; and immediately after the
revoke the same access check fails, provided the generated permission id is
fresh and no other permission of the prior state grants p on r to b. -/
theorem C1_grant_check_revoke (s : ServiceState) (g b r : String)
    (rt : ResourceType) (perms : List PermType) (p : PermType) (h t : Nat)
    (rndP rndA rnd1 rnd2 rnd3 : String)
    (hp : p ∈ perms) (hh : 0 < h)
    (hfresh : ∀ q ∈ s.permissions, q.id ≠ permIdOf t rndP)
    (hother : ∀ q ∈ s.permissions, checkMatches b r p t q = false) :
    (checkAccess b r p t rnd1 (grantAccess g b r rt perms h t rndP rndA s).2).1 = true ∧
    (revokeAccess g (grantAccess g b r rt perms h t rndP rndA s).1 t rnd2
        (grantAccess g b r rt perms h t rndP rndA s).2).1 = .ok () ∧
    (checkAccess b r p t rnd3
        (revokeAccess g (grantAccess g b r rt perms h t rndP rndA s).1 t rnd2
          (grantAccess g b r rt perms h t rndP rndA s).2).2).1 = false := by
  have hP := checkMatches_mkPermission_self g b r rt perms p h t rndP hp hh
  have hnone : s.permissions.find? (revokeMatches g (permIdOf t rndP)) = none :=
    List.find?_eq_none.mpr fun q hq => by
      simp [revokeMatches_false_of_id_ne (hfresh q hq)]
  have hfind : (grantAccess g b r rt perms h t rndP rndA s).2.permissions.find?
      (revokeMatches g (permIdOf t rndP)) =
      some (mkPermission g b r rt perms h t rndP) := by
    rw [grantAccess_snd_permissions, find?_append_of_none _ _ _ hnone,
      List.find?_cons_of_pos _ (revokeMatches_mkPermission g b r rt perms h t rndP)]
  obtain ⟨hrev1, hrev2⟩ := revokeAccess_of_find g (permIdOf t rndP) t rnd2
    (grantAccess g b r rt perms h t rndP rndA s).2 _ hfind
  refine ⟨?_, ?_, ?_⟩
  · rw [checkAccess_fst, grantAccess_snd_permissions, List.filter_append]
    simp [hP]
  · rw [grantAccess_fst]
    exact hrev1
  · rw [checkAccess_fst, grantAccess_fst, hrev2, grantAccess_snd_permissions,
      deactivateFirst_append_of_none g (permIdOf t rndP) _ _
        (fun q hq => revokeMatches_false_of_id_ne (hfresh q hq))]
    have hone : deactivateFirst g (permIdOf t rndP)
        [mkPermission g b r rt perms h t rndP] =
        [{ mkPermission g b r rt perms h t rndP with isActive := false }] := by
      simp [deactivateFirst, revokeMatches_mkPermission g b r rt perms h t rndP]
    rw [hone, List.filter_append, List.filter_eq_nil_iff.mpr
      (fun q hq => by simp [hother q hq])]
    simp [checkMatches_deactivated]

/-- C1 witness: the concrete scenario of the spec — grant read on "rec1"
from "A" to "B" for one hour at time 0, check, revoke, check again. -/
theorem C1_witness :
    (PermType.read ∈ [PermType.read] ∧ 0 < 1 ∧
      (∀ q ∈ initialState.permissions, q.id ≠ permIdOf 0 "w") ∧
      (∀ q ∈ initialState.permissions,
        checkMatches "B" "rec1" .read 0 q = false)) ∧
    ((checkAccess "B" "rec1" .read 0 "c1"
        (grantAccess "A" "B" "rec1" .record [.read] 1 0 "w" "a" initialState).2).1 = true ∧
     (revokeAccess "A"
        (grantAccess "A" "B" "rec1" .record [.read] 1 0 "w" "a" initialState).1 0 "c2"
        (grantAccess "A" "B" "rec1" .record [.read] 1 0 "w" "a" initialState).2).1 = .ok () ∧
     (checkAccess "B" "rec1" .read 0 "c3"
        (revokeAccess "A"
          (grantAccess "A" "B" "rec1" .record [.read] 1 0 "w" "a" initialState).1 0 "c2"
          (grantAccess "A" "B" "rec1" .record [.read] 1 0 "w" "a" initialState).2).2).1 = false) :=
  ⟨⟨by decide, by decide, by decide, by decide⟩,
   C1_grant_check_revoke initialState "A" "B" "rec1" .record [.read] .read 1 0
     "w" "a" "c1" "c2" "c3" (by decide) (by decide) (by decide) (by decide)⟩

/-- C2: for a grant with ttlHours = h and no revoke call, an access check
strictly after createdAt + h hours returns false — the permission expires
implicitly, recomputed at read time with no state transition — provided no
other permission of the prior state grants p on r to b at that time. -/
theorem C2_grant_expires (s : ServiceState) (g b r : String)
    (rt : ResourceType) (perms : List PermType) (p : PermType) (h t t2 : Nat)
    (rndP rndA rnd1 : String)
    (hafter : t + h * (60 * 60 * 1000) < t2)
    (hother : ∀ q ∈ s.permissions, checkMatches b r p t2 q = false) :
    (checkAccess b r p t2 rnd1
      (grantAccess g b r rt perms h t rndP rndA s).2).1 = false := by
  rw [checkAccess_fst, grantAccess_snd_permissions, List.filter_append,
    List.filter_eq_nil_iff.mpr (fun q hq => by simp [hother q hq])]
  simp [checkMatches, mkPermission]
  intro hcon
  exact absurd hcon (by omega)

/-- C2 witness: a one-hour grant at time 0 no longer passes an access check
at time 3600001 (one millisecond past expiry). -/
theorem C2_witness :
    ((0 : Nat) + 1 * (60 * 60 * 1000) < 3600001 ∧
      (∀ q ∈ initialState.permissions,
        checkMatches "B" "rec1" .read 3600001 q = false)) ∧
    (checkAccess "B" "rec1" .read 3600001 "c1"
      (grantAccess "A" "B" "rec1" .record [.read] 1 0 "w" "a" initialState).2).1 = false :=
  ⟨⟨by decide, by decide⟩,
   C2_grant_expires initialState "A" "B" "rec1" .record [.read] .read 1 0
     3600001 "w" "a" "c1" (by decide) (by decide)⟩

theorem find?_deactivateFirst (g pid : String) (l : List AccessPermission)
    (P : AccessPermission) (h : l.find? (revokeMatches g pid) = some P) :
    (deactivateFirst g pid l).find? (revokeMatches g pid) =
      some { P with isActive := false } := by
  induction l with
  | nil => exact Option.noConfusion h
  | cons q qs ih =>
    cases hq : revokeMatches g pid q with
    | true =>
      rw [List.find?_cons_of_pos _ hq] at h
      injection h with h
      subst h
      have hq' : revokeMatches g pid { q with isActive := false } = true := hq
      simp [deactivateFirst, hq, List.find?_cons_of_pos _ hq']
    | false =>
      have hq' : ¬ revokeMatches g pid q = true := by simp [hq]
      rw [List.find?_cons_of_neg _ hq'] at h
      simp [deactivateFirst, hq, List.find?_cons_of_neg _ hq', ih h]

theorem revokeAccess_ok_iff (g pid : String) (now : Nat) (rndA : String)
    (s : ServiceState) :
    (revokeAccess g pid now rndA s).1 = .ok () ↔
      ∃ P, s.permissions.find? (revokeMatches g pid) = some P := by
  cases hf : s.permissions.find? (revokeMatches g pid) with
  | none =>
    obtain ⟨h1, _⟩ := revokeAccess_of_none g pid now rndA s hf
    simp [h1]
  | some P =>
    obtain ⟨h1, _⟩ := revokeAccess_of_find g pid now rndA s P hf
    simp [h1]

/-- C5 counterexample: in a state holding one active permission
"perm_1_r" granted by "A", revoking it twice as "A" succeeds both times;
the second revoke does not fail with NotFoundOrUnauthorized. -/
theorem C5_counterexample :
    (revokeAccess "A" "perm_1_r" 5 "x" c5State).1 = .ok () ∧
    (revokeAccess "A" "perm_1_r" 6 "y"
      (revokeAccess "A" "perm_1_r" 5 "x" c5State).2).1 = .ok () :=
  ⟨rfl, rfl⟩

/-- C5 (amended): revoke is not one-shot: after a successful
revoke(granter, permId), a second revoke of the same permission id by the
same granter succeeds again as a redundant deactivation, because the lookup
does not test the active flag. -/
theorem C5_second_revoke_succeeds (s : ServiceState) (g pid : String)
    (t1 t2 : Nat) (r1 r2 : String)
    (h : (revokeAccess g pid t1 r1 s).1 = .ok ()) :
    (revokeAccess g pid t2 r2 (revokeAccess g pid t1 r1 s).2).1 = .ok () := by
  obtain ⟨P, hf⟩ := (revokeAccess_ok_iff g pid t1 r1 s).mp h
  obtain ⟨h1, h2⟩ := revokeAccess_of_find g pid t1 r1 s P hf
  have hf2 : (revokeAccess g pid t1 r1 s).2.permissions.find?
      (revokeMatches g pid) = some { P with isActive := false } := by
    rw [h2]
    exact find?_deactivateFirst g pid s.permissions P hf
  exact (revokeAccess_of_find g pid t2 r2 _ _ hf2).1

/-- C5 witness: the amended claim at the concrete double-revoke scenario. -/
theorem C5_witness :
    (revokeAccess "A" "perm_1_r" 7 "x" c5State).1 = .ok () ∧
    (revokeAccess "A" "perm_1_r" 8 "z"
      (revokeAccess "A" "perm_1_r" 7 "x" c5State).2).1 = .ok () :=
  ⟨rfl, C5_second_revoke_succeeds c5State "A" "perm_1_r" 7 8 "x" "z" rfl⟩

/-- C6: a revoke by a caller that is not the original granter of any
permission with the given id fails with NotFoundOrUnauthorized and leaves
the whole state (in particular every active flag) unchanged. -/
theorem C6_revoke_unauthorized (s : ServiceState) (caller pid : String)
    (t : Nat) (rnd : String)
    (h : ∀ q ∈ s.permissions, q.id = pid → q.granterAddress ≠ caller) :
    (revokeAccess caller pid t rnd s).1 = .error .notFoundOrUnauthorized ∧
    (revokeAccess caller pid t rnd s).2 = s := by
  apply revokeAccess_of_none
  apply List.find?_eq_none.mpr
  intro q hq
  simp [revokeMatches]
  intro hid
  exact h q hq hid

/-- C6 witness: principal "M" cannot revoke the permission granted by "A";
the state is untouched and the permission stays active. -/
theorem C6_witness :
    (∀ q ∈ c5State.permissions, q.id = "perm_1_r" → q.granterAddress ≠ "M") ∧
    ((revokeAccess "M" "perm_1_r" 9 "z" c5State).1 = .error .notFoundOrUnauthorized ∧
     (revokeAccess "M" "perm_1_r" 9 "z" c5State).2 = c5State) :=
  ⟨by decide, C6_revoke_unauthorized c5State "M" "perm_1_r" 9 "z" (by decide)⟩

/-- C7 counterexample: grantAccess performs no input validation — called
with an empty permission list and zero ttl on the empty state it does not
fail with InvalidArgument; it appends a permission and records an audit
event. -/
theorem C7_counterexample :
    (grantAccess "A" "B" "rec1" .record [] 0 5 "p" "a"
      initialState).2.permissions.length = 1 ∧
    (grantAccess "A" "B" "rec1" .record [] 0 5 "p" "a"
      initialState).2.auditLogs.length = 1 := by
  constructor
  · rw [grantAccess_snd_permissions]
    decide
  · simp [grantAccess, logSecurityEvent, initialState]

/-- C7 (amended): grant never fails: even when the permission set is empty
or ttlHours is zero it appends the new permission and records an audit
event; such a permission, however, never satisfies the access-check filter
at any time at or after its creation. -/
theorem C7_grant_no_validation (s : ServiceState) (g b r : String)
    (rt : ResourceType) (perms : List PermType) (h t : Nat)
    (rndP rndA : String) (hbad : perms = [] ∨ h = 0) :
    (grantAccess g b r rt perms h t rndP rndA s).2.permissions.length =
      s.permissions.length + 1 ∧
    (grantAccess g b r rt perms h t rndP rndA s).2.auditLogs.length =
      s.auditLogs.length + 1 ∧
    ∀ (u rid : String) (p : PermType) (t2 : Nat), t ≤ t2 →
      checkMatches u rid p t2 (mkPermission g b r rt perms h t rndP) = false := by
  refine ⟨?_, ?_, ?_⟩
  · rw [grantAccess_snd_permissions]
    simp
  · simp [grantAccess, logSecurityEvent]
  · intro u rid p t2 ht2
    rcases hbad with hbad | hbad
    · subst hbad
      simp [checkMatches, mkPermission]
    · subst hbad
      simp [checkMatches, mkPermission]
      intro h1 h2 hcon
      exact absurd hcon (by omega)

/-- C7 witness: the amended claim at the concrete no-validation inputs. -/
theorem C7_witness :
    (([] : List PermType) = [] ∨ (0 : Nat) = 0) ∧
    ((grantAccess "A" "B" "rec1" .record [] 0 5 "p" "a"
        initialState).2.permissions.length = initialState.permissions.length + 1 ∧
     (grantAccess "A" "B" "rec1" .record [] 0 5 "p" "a"
        initialState).2.auditLogs.length = initialState.auditLogs.length + 1 ∧
     ∀ (u rid : String) (p : PermType) (t2 : Nat), 5 ≤ t2 →
       checkMatches u rid p t2 (mkPermission "A" "B" "rec1" .record [] 0 5 "p") = false) :=
  ⟨Or.inl rfl,
   C7_grant_no_validation initialState "A" "B" "rec1" .record [] 0 5 "p" "a"
     (Or.inl rfl)⟩

/-!
Scoring lemmas.
-/

theorem any_eq_decide_filter_pos {α} (l : List α) (p : α → Bool) :
    l.any p = decide (0 < (l.filter p).length) := by
  cases hl : l.any p with
  | false =>
    have hall : ∀ x ∈ l, ¬ p x := by simpa [List.any_eq_false] using hl
    rw [List.filter_eq_nil_iff.mpr hall]
    rfl
  | true =>
    obtain ⟨x, hx, hpx⟩ := List.any_eq_true.mp hl
    have hmem : x ∈ l.filter p := List.mem_filter.mpr ⟨hx, hpx⟩
    symm
    rw [decide_eq_true_eq, List.length_pos]
    exact List.ne_nil_of_mem hmem

/-- The score computed by the code equals the closed-form spec formula over
the fetched events and the effective-permission count. -/
theorem calculateSecurityScore_formula (addr : String) (now : Nat)
    (s : ServiceState) :
    (calculateSecurityScore addr now s).1 =
      specScore (getSecurityAuditLogs (some addr) 100 s).1
        (getUserPermissions addr now s).1.length now := by
  have hpred : (fun e : SecurityAudit => e.success == false) =
      (fun e : SecurityAudit => !e.success) := by
    funext e; cases e.success <;> rfl
  unfold calculateSecurityScore specScore
  dsimp only
  rw [hpred, List.countP_eq_length_filter, List.countP_eq_length_filter,
    any_eq_decide_filter_pos]
  simp only [decide_eq_true_eq]
  split_ifs <;> omega

/-- For a non-empty principal the fetch of `getSecurityAuditLogs` is the
sorted, principal-filtered, truncated log. -/
theorem getSecurityAuditLogs_fst_of_ne (u : String) (limit : Int)
    (s : ServiceState) (h : u ≠ "") :
    (getSecurityAuditLogs (some u) limit s).1 =
      jsSliceTo ((s.auditLogs.mergeSort tsDesc).filter (logMatches u)) limit := by
  unfold getSecurityAuditLogs
  dsimp only
  rw [if_neg h]

/-- For the empty-string principal the truthy guard of the source skips the
filter: the fetch is the sorted, truncated log of ALL principals. -/
theorem getSecurityAuditLogs_fst_empty (limit : Int) (s : ServiceState) :
    (getSecurityAuditLogs (some "") limit s).1 =
      jsSliceTo (s.auditLogs.mergeSort tsDesc) limit := by
  unfold getSecurityAuditLogs
  dsimp only
  rw [if_pos rfl]

/-- C3 counterexample: the per-principal score formula fails at the concrete
principal "". With one old failed event of the foreign principal "Y" in the
log, the program scores principal "" at 98 (the falsy guard skips the
principal filter, so the foreign failure is counted), while the claimed
formula over the events of principal "" (there are none) gives 100. -/
theorem C3_counterexample :
    (calculateSecurityScore "" c3Now c3StateB).1 = 98 ∧
    specScore (c3StateB.auditLogs.filter (logMatches ""))
      (getUserPermissions "" c3Now c3StateB).1.length c3Now = 100 := by
  constructor
  · have hm : c3StateB.auditLogs.mergeSort tsDesc = c3StateB.auditLogs :=
      List.mergeSort_of_sorted (by decide)
    have hlogs : (getSecurityAuditLogs (some "") 100 c3StateB).1 =
        c3StateB.auditLogs := by
      rw [getSecurityAuditLogs_fst_empty, hm]
      decide
    unfold calculateSecurityScore
    dsimp only
    rw [hlogs]
    decide
  · decide

/-- C3 (amended): for every principal with a NON-EMPTY identifier and every
state, the score equals the clamp to [0, 100] of 100, minus 2 per failed
event and 5 per high-risk event among the up-to-100 most recent events of
that principal (a failed high-risk event incurs both penalties), minus 3
per effective permission beyond 10, plus a flat 5 when any fetched event is
within the last 7 days; for the empty-string principal the source skips the
principal filter (JS truthiness), and the same formula is computed over the
up-to-100 most recent events of all principals; in particular the scenario
of 3 failed events plus 1 failed high-risk event, all old, with no
permissions scores 87. -/
theorem C3_score_formula_and_scenario :
    (∀ (addr : String) (now : Nat) (s : ServiceState), addr ≠ "" →
      (calculateSecurityScore addr now s).1 =
        specScore
          (jsSliceTo ((s.auditLogs.mergeSort tsDesc).filter (logMatches addr)) 100)
          (getUserPermissions addr now s).1.length now) ∧
    (∀ (now : Nat) (s : ServiceState),
      (calculateSecurityScore "" now s).1 =
        specScore (jsSliceTo (s.auditLogs.mergeSort tsDesc) 100)
          (getUserPermissions "" now s).1.length now) ∧
    (calculateSecurityScore "X" c3Now c3State).1 = 87 := by
  refine ⟨?_, ?_, ?_⟩
  · intro addr now s h
    rw [calculateSecurityScore_formula, getSecurityAuditLogs_fst_of_ne _ _ _ h]
  · intro now s
    rw [calculateSecurityScore_formula, getSecurityAuditLogs_fst_empty]
  · have hm : c3State.auditLogs.mergeSort tsDesc = c3State.auditLogs :=
      List.mergeSort_of_sorted (by decide)
    have hlogs : (getSecurityAuditLogs (some "X") 100 c3State).1 =
        c3State.auditLogs := by
      rw [getSecurityAuditLogs_fst_of_ne _ _ _ (by decide), hm]
      decide
    unfold calculateSecurityScore
    dsimp only
    rw [hlogs]
    decide

/-- C3 witness: the non-empty-principal half of the amended claim exercised
at principal "X" in the concrete scenario state. -/
theorem C3_witness :
    ("X" : String) ≠ "" ∧
    (calculateSecurityScore "X" c3Now c3State).1 =
      specScore
        (jsSliceTo ((c3State.auditLogs.mergeSort tsDesc).filter (logMatches "X")) 100)
        (getUserPermissions "X" c3Now c3State).1.length c3Now :=
  ⟨by decide,
   C3_score_formula_and_scenario.1 "X" c3Now c3State (by decide)⟩

/-- C9: holding the effective-permission count, the recency indicator and
the other event count fixed, the score never increases when the count of
failed events grows, and never increases when the count of high-risk events
grows. -/
theorem C9_score_monotone (addr : String) (now : Nat) (s1 s2 : ServiceState)
    (hperm : (getUserPermissions addr now s2).1.length =
      (getUserPermissions addr now s1).1.length)
    (hrecent : (getSecurityAuditLogs (some addr) 100 s2).1.any (isRecent now) =
      (getSecurityAuditLogs (some addr) 100 s1).1.any (isRecent now)) :
    ((getSecurityAuditLogs (some addr) 100 s2).1.countP
        (fun e => e.riskLevel == RiskLevel.high) =
      (getSecurityAuditLogs (some addr) 100 s1).1.countP
        (fun e => e.riskLevel == RiskLevel.high) →
     (getSecurityAuditLogs (some addr) 100 s1).1.countP
        (fun e => e.success == false) ≤
      (getSecurityAuditLogs (some addr) 100 s2).1.countP
        (fun e => e.success == false) →
     (calculateSecurityScore addr now s2).1 ≤
       (calculateSecurityScore addr now s1).1) ∧
    ((getSecurityAuditLogs (some addr) 100 s2).1.countP
        (fun e => e.success == false) =
      (getSecurityAuditLogs (some addr) 100 s1).1.countP
        (fun e => e.success == false) →
     (getSecurityAuditLogs (some addr) 100 s1).1.countP
        (fun e => e.riskLevel == RiskLevel.high) ≤
      (getSecurityAuditLogs (some addr) 100 s2).1.countP
        (fun e => e.riskLevel == RiskLevel.high) →
     (calculateSecurityScore addr now s2).1 ≤
       (calculateSecurityScore addr now s1).1) := by
  rw [calculateSecurityScore_formula addr now s1,
    calculateSecurityScore_formula addr now s2]
  unfold specScore
  rw [hperm, hrecent]
  constructor
  · intro hh hf
    rw [hh]
    split_ifs <;> omega
  · intro hf hh
    rw [hf]
    split_ifs <;> omega


/-- C9 witness: relative to an empty history, one old failed low-risk event
for "X" (same permission count, same recency indicator, same high-risk
count) does not raise the score; one old successful high-risk event does not
either. -/
theorem C9_witness :
    ((getUserPermissions "X" c3Now c9State).1.length =
        (getUserPermissions "X" c3Now initialState).1.length ∧
      (getSecurityAuditLogs (some "X") 100 c9State).1.any (isRecent c3Now) =
        (getSecurityAuditLogs (some "X") 100 initialState).1.any (isRecent c3Now)) ∧
    (calculateSecurityScore "X" c3Now c9State).1 ≤
      (calculateSecurityScore "X" c3Now initialState).1 ∧
    (calculateSecurityScore "X" c3Now c9StateH).1 ≤
      (calculateSecurityScore "X" c3Now initialState).1 := by
  have h1 : (getSecurityAuditLogs (some "X") 100 initialState).1 = [] := by
    unfold getSecurityAuditLogs
    dsimp only
    rw [show initialState.auditLogs.mergeSort tsDesc = initialState.auditLogs
      from List.mergeSort_of_sorted (by decide)]
    decide
  have h2 : (getSecurityAuditLogs (some "X") 100 c9State).1 =
      c9State.auditLogs := by
    unfold getSecurityAuditLogs
    dsimp only
    rw [show c9State.auditLogs.mergeSort tsDesc = c9State.auditLogs
      from List.mergeSort_of_sorted (by decide)]
    decide
  have h3 : (getSecurityAuditLogs (some "X") 100 c9StateH).1 =
      c9StateH.auditLogs := by
    unfold getSecurityAuditLogs
    dsimp only
    rw [show c9StateH.auditLogs.mergeSort tsDesc = c9StateH.auditLogs
      from List.mergeSort_of_sorted (by decide)]
    decide
  have hperm : (getUserPermissions "X" c3Now c9State).1.length =
      (getUserPermissions "X" c3Now initialState).1.length := by decide
  have hpermH : (getUserPermissions "X" c3Now c9StateH).1.length =
      (getUserPermissions "X" c3Now initialState).1.length := by decide
  have hrec : (getSecurityAuditLogs (some "X") 100 c9State).1.any (isRecent c3Now) =
      (getSecurityAuditLogs (some "X") 100 initialState).1.any (isRecent c3Now) := by
    rw [h1, h2]; decide
  have hrecH : (getSecurityAuditLogs (some "X") 100 c9StateH).1.any (isRecent c3Now) =
      (getSecurityAuditLogs (some "X") 100 initialState).1.any (isRecent c3Now) := by
    rw [h1, h3]; decide
  refine ⟨⟨hperm, hrec⟩, ?_, ?_⟩
  · exact (C9_score_monotone "X" c3Now initialState c9State hperm hrec).1
      (by rw [h1, h2]; decide) (by rw [h1, h2]; decide)
  · exact (C9_score_monotone "X" c3Now initialState c9StateH hpermH hrecH).2
      (by rw [h1, h3]; decide) (by rw [h1, h3]; decide)

/-- C8 counterexample: a limit that is not a positive integer does not make
the audit query fail with InvalidArgument: limit 0 returns the empty list
and limit -1 returns all but the last sorted entry (JS slice semantics). -/
theorem C8_counterexample :
    (getSecurityAuditLogs none 0 c8State).1 = [] ∧
    (getSecurityAuditLogs none (-1) c8State).1 = [c8e1] := by
  have hm : c8State.auditLogs.mergeSort tsDesc = c8State.auditLogs :=
    List.mergeSort_of_sorted (by decide)
  constructor
  · unfold getSecurityAuditLogs
    dsimp only
    rw [hm]
    decide
  · unfold getSecurityAuditLogs
    dsimp only
    rw [hm]
    decide

/-- C8 (amended): the audit query never fails: limit 0 yields the empty
list (negative limits drop entries from the end, per JS slice); for every
positive limit the result has at most limit entries, each drawn from the
stored log, sorted by timestamp descending, and filtered case-insensitively
by the principal when a NON-EMPTY principal is given; the empty-string
principal is falsy in the source guard, so the filter is skipped and the
query returns all principals entries. -/
theorem C8_query_spec (s : ServiceState) (u : String) (limit : Int) :
    (limit = 0 → (getSecurityAuditLogs (some u) limit s).1 = []) ∧
    (u = "" → (getSecurityAuditLogs (some u) limit s).1 =
      jsSliceTo (s.auditLogs.mergeSort tsDesc) limit) ∧
    (0 < limit →
      (getSecurityAuditLogs (some u) limit s).1.length ≤ limit.toNat ∧
      (∀ e ∈ (getSecurityAuditLogs (some u) limit s).1, e ∈ s.auditLogs) ∧
      (u ≠ "" → ∀ e ∈ (getSecurityAuditLogs (some u) limit s).1,
        logMatches u e = true) ∧
      (getSecurityAuditLogs (some u) limit s).1.Pairwise
        (fun a b => b.timestamp ≤ a.timestamp)) := by
  have htrans : ∀ a b c : SecurityAudit, tsDesc a b → tsDesc b c → tsDesc a c := by
    intro a b c h1 h2
    simp only [tsDesc, decide_eq_true_eq] at h1 h2 ⊢
    omega
  have htotal : ∀ a b : SecurityAudit, tsDesc a b || tsDesc b a := by
    intro a b
    simp only [tsDesc, Bool.or_eq_true, decide_eq_true_eq]
    omega
  have hsorted : (s.auditLogs.mergeSort tsDesc).Pairwise
      (fun a b => b.timestamp ≤ a.timestamp) :=
    (List.sorted_mergeSort htrans htotal s.auditLogs).imp (by
      intro a b hab
      simpa [tsDesc] using hab)
  refine ⟨?_, fun hu => by rw [hu]; exact getSecurityAuditLogs_fst_empty limit s, ?_⟩
  · intro h
    subst h
    unfold getSecurityAuditLogs jsSliceTo
    dsimp only
    norm_num
  · intro hpos
    have hslice : ∀ l : List SecurityAudit, jsSliceTo l limit = l.take limit.toNat := by
      intro l
      unfold jsSliceTo
      rw [if_neg (by omega)]
    by_cases hu : u = ""
    · subst hu
      rw [getSecurityAuditLogs_fst_empty, hslice]
      refine ⟨List.length_take_le _ _, ?_, ?_, ?_⟩
      · intro e he
        exact List.mem_mergeSort.mp (List.mem_of_mem_take he)
      · intro hne
        exact absurd rfl hne
      · exact List.Pairwise.sublist (List.take_sublist _ _) hsorted
    · rw [getSecurityAuditLogs_fst_of_ne _ _ _ hu, hslice]
      refine ⟨List.length_take_le _ _, ?_, ?_, ?_⟩
      · intro e he
        exact List.mem_mergeSort.mp
          (List.mem_filter.mp (List.mem_of_mem_take he)).1
      · intro _ e he
        exact (List.mem_filter.mp (List.mem_of_mem_take he)).2
      · exact List.Pairwise.sublist (List.take_sublist _ _)
          (List.Pairwise.filter _ hsorted)

/-- C8 witness: the amended claim at the concrete two-entry log, with the
non-empty principal "B", the positive limit 2 and the non-positive limit 0. -/
theorem C8_witness :
    ((0 : Int) < 2 ∧
      ((getSecurityAuditLogs (some "B") 2 c8State).1.length ≤ (2 : Int).toNat ∧
       (∀ e ∈ (getSecurityAuditLogs (some "B") 2 c8State).1,
          e ∈ c8State.auditLogs) ∧
       (("B" : String) ≠ "" → ∀ e ∈ (getSecurityAuditLogs (some "B") 2 c8State).1,
          logMatches "B" e = true) ∧
       (getSecurityAuditLogs (some "B") 2 c8State).1.Pairwise
         (fun a b => b.timestamp ≤ a.timestamp))) ∧
    ((0 : Int) = 0 ∧ (getSecurityAuditLogs (some "B") 0 c8State).1 = []) :=
  ⟨⟨by decide, (C8_query_spec c8State "B" 2).2.2 (by decide)⟩,
   ⟨rfl, (C8_query_spec c8State "B" 0).1 rfl⟩⟩

/-- C10: the reads getSecurityAuditLogs, getUserPermissions and
calculateSecurityScore return the state unchanged — they append no audit
event and leave both collections untouched — so computing a score does not
alter the next score; checkAccess, in contrast, appends one audit event. -/
theorem C10_reads_pure (s : ServiceState) (u : Option String) (limit : Int)
    (addr rid : String) (p : PermType) (now : Nat) (rnd : String) :
    (getSecurityAuditLogs u limit s).2 = s ∧
    (getUserPermissions addr now s).2 = s ∧
    (calculateSecurityScore addr now s).2 = s ∧
    (calculateSecurityScore addr now (calculateSecurityScore addr now s).2).1 =
      (calculateSecurityScore addr now s).1 ∧
    (checkAccess addr rid p now rnd s).2.auditLogs.length =
      s.auditLogs.length + 1 := by
  refine ⟨rfl, rfl, rfl, rfl, ?_⟩
  simp [checkAccess, logSecurityEvent]
